import Mathlib

/-!
Verification development for the Kubernetes datastore backend adapter
(`libcalico-go/lib/backend/k8s/k8s.go`): the key/list data model, the
construction-time resource registry, the dispatch layer (Create, Update,
Apply, Delete, DeleteKVP, Get, List, Watch), the derived-value synthesizer
(readiness flag, host tunnel address), the kubeconfig resolution logic and
the best-effort `Clean` reconciler, together with theorems about them.

Go's runtime type-based routing (`reflect.TypeOf`) is embedded as a closed
inductive of key-type / list-type descriptors; a key's or list's dynamic type
is the descriptor of its constructor.  Go maps are embedded as functions into
`Option`.  Handler calls (the adapter's only I/O) are made observable as an
explicit trace of calls emitted alongside each result.
-/

deriving instance DecidableEq for Except

namespace Calico

/-- Key-type descriptors: the dynamic types (`reflect.Type`) of the key
variants in `model`.  `resourceKeyType` embeds `reflect.TypeOf(model.ResourceKey{})`. -/
inductive KeyType where
  | resourceKeyType
  | blockKeyType
  | blockAffinityKeyType
  | ipamHandleKeyType
  | ipamConfigKeyType
  | hostConfigKeyType
  | readyFlagKeyType
deriving DecidableEq

/-- List-type descriptors: the dynamic types of the list-options variants in
`model`.  `resourceListType` embeds `reflect.TypeOf(model.ResourceListOptions{})`. -/
inductive ListType where
  | resourceListType
  | blockListType
  | blockAffinityListType
  | ipamHandleListType
  | hostConfigListType
deriving DecidableEq

/-- Modelled from the spec (the `model` package is not part of the sources):
`model.Key` is polymorphic over a generic `ResourceKey{Kind, Namespace, Name}`
and several narrow purpose-built variants. -/
inductive Key where
  | resource (kind ns name : String)
  | block (cidr : String)
  | blockAffinity (host cidr : String)
  | ipamHandle (handleID : String)
  | ipamConfig
  | hostConfig (hostname name : String)
  | readyFlag
deriving DecidableEq

/-- The dynamic type of a key, as observed by `reflect.TypeOf`. -/
def Key.typeOf : Key → KeyType
  | .resource _ _ _ => .resourceKeyType
  | .block _ => .blockKeyType
  | .blockAffinity _ _ => .blockAffinityKeyType
  | .ipamHandle _ => .ipamHandleKeyType
  | .ipamConfig => .ipamConfigKeyType
  | .hostConfig _ _ => .hostConfigKeyType
  | .readyFlag => .readyFlagKeyType

/-- The `Kind` field reached by the cast `key.(model.ResourceKey).Kind`;
only ever used on keys of the generic type. -/
def Key.resourceKind : Key → String
  | .resource kind _ _ => kind
  | _ => ""

/-- Modelled from the spec: `model.ListInterface` mirrors `Key` with a generic
`ResourceListOptions{Kind, Namespace, Name}` and narrow list variants. -/
inductive ListInterface where
  | resourceList (kind ns name : String)
  | blockList (ipVersion : Nat)
  | blockAffinityList (host : String) (ipVersion : Nat)
  | ipamHandleList
  | hostConfigList (hostname name : String)
deriving DecidableEq

/-- The dynamic type of a list query, as observed by `reflect.TypeOf`. -/
def ListInterface.typeOf : ListInterface → ListType
  | .resourceList _ _ _ => .resourceListType
  | .blockList _ => .blockListType
  | .blockAffinityList _ _ => .blockAffinityListType
  | .ipamHandleList => .ipamHandleListType
  | .hostConfigList _ _ => .hostConfigListType

/-- The `Kind` field reached by the cast `list.(model.ResourceListOptions).Kind`. -/
def ListInterface.resourceKind : ListInterface → String
  | .resourceList kind _ _ => kind
  | _ => ""

/-- Resource payloads.  A closed set of payload shapes suffices for this
adapter: string values (tunnel addresses), boolean values (ready flag),
node objects (`*libapiv3.Node`, of which only `Spec.BGP` is relevant to
`Clean`; `rest` stands for the remaining node data) and otherwise-opaque
payloads handed through to handlers. -/
inductive Value where
  | strVal (s : String)
  | boolVal (b : Bool)
  | nodeVal (bgp : Option Nat) (rest : Nat)
  | rawVal (n : Nat)
deriving DecidableEq

/-- Whether a payload is a node object (the cast `Value.(*libapiv3.Node)` succeeds). -/
def Value.isNode : Value → Bool
  | .nodeVal _ _ => true
  | _ => false

/-- `model.KVPair`: `{Key, Value, Revision}`. -/
structure KVPair where
  key : Key
  value : Value
  revision : String
deriving DecidableEq

/-- `model.KVPairList`: the result of a List operation. -/
structure KVPairList where
  kvPairs : List KVPair
  revision : String
deriving DecidableEq

/-- The identifier carried by backend errors: the offending key or list. -/
inductive ErrIdentifier where
  | keyId (k : Key)
  | listId (l : ListInterface)
deriving DecidableEq

/-- The backend error taxonomy (`lib/errors`): `ErrorOperationNotSupported`
carries the identifier and operation name; `ErrorResourceAlreadyExists` is the
condition `Apply` reacts to; `generic` stands for every other error (transport,
not-found, parse, ...), which this adapter passes through unchanged. -/
inductive CalicoError where
  | operationNotSupported (identifier : ErrIdentifier) (operation : String)
  | resourceAlreadyExists (identifier : ErrIdentifier)
  | generic (msg : String)
deriving DecidableEq

/-- The type assertion `err.(cerrors.ErrorResourceAlreadyExists)` in `Apply`. -/
def CalicoError.isAlreadyExists : CalicoError → Bool
  | .resourceAlreadyExists _ => true
  | _ => false

/-- Modelled from the spec: `api.WatchOptions` (only the revision matters to
this adapter, which passes the options through verbatim). -/
structure WatchOptions where
  revision : String
deriving DecidableEq

/-- A recorded call into a registered handler.  The adapter's "I/O" consists
exactly of these calls; an operation that performs no I/O emits an empty trace. -/
inductive HCall where
  | createCall (cid : Nat) (d : KVPair)
  | updateCall (cid : Nat) (d : KVPair)
  | deleteCall (cid : Nat) (k : Key) (revision : String)
  | deleteKVPCall (cid : Nat) (d : KVPair)
  | getCall (cid : Nat) (k : Key) (revision : String)
  | listCall (cid : Nat) (l : ListInterface) (revision : String)
  | watchCall (cid : Nat) (l : ListInterface) (opts : WatchOptions)
deriving DecidableEq

/-- Trace of handler calls emitted by one adapter operation. -/
abbrev HTrace := List HCall

/-- A per-kind resource client (`resources.K8sResourceClient`): an external
collaborator with the uniform capability set.  `id` identifies the handler
instance in call traces; the behavior fields give the results the handler
returns for each operation. -/
structure ResourceClient where
  id : Nat
  create : KVPair → Except CalicoError KVPair
  update : KVPair → Except CalicoError KVPair
  delete : Key → String → Except CalicoError KVPair
  deleteKVP : KVPair → Except CalicoError KVPair
  get : Key → String → Except CalicoError KVPair
  list : ListInterface → String → Except CalicoError KVPairList
  watch : ListInterface → WatchOptions → Except CalicoError Nat

/-- `KubeClient`: the three registry tables.  Go maps become functions into
`Option`; `clientsByListType` is keyed by `Option ListType` because the Go map
key is a possibly-nil `reflect.Type` (one registration passes a nil list type). -/
structure KubeClient where
  clientsByResourceKind : String → Option ResourceClient
  clientsByKeyType : KeyType → Option ResourceClient
  clientsByListType : Option ListType → Option ResourceClient

/-- `registerResourceClient`: a generic (`ResourceKey`) registration goes into
the kind-indexed table; any other goes into the key-type table and, under the
given (possibly nil) list-type descriptor, the list-type table. -/
def KubeClient.registerResourceClient (c : KubeClient) (keyType : KeyType)
    (listType : Option ListType) (resourceKind : String) (client : ResourceClient) : KubeClient :=
  if keyType = KeyType.resourceKeyType then
    { c with clientsByResourceKind :=
        fun k => if k = resourceKind then some client else c.clientsByResourceKind k }
  else
    { c with
        clientsByKeyType :=
          fun t => if t = keyType then some client else c.clientsByKeyType t,
        clientsByListType :=
          fun t => if t = listType then some client else c.clientsByListType t }

/-- `GetResourceClientFromResourceKind`. -/
def KubeClient.GetResourceClientFromResourceKind (c : KubeClient) (kind : String) :
    Option ResourceClient :=
  c.clientsByResourceKind kind

/-- `getResourceClientFromKey`: a key of the generic dynamic type resolves by
its embedded kind string; any other key by its own type identity. -/
def KubeClient.getResourceClientFromKey (c : KubeClient) (key : Key) : Option ResourceClient :=
  match key with
  | .resource kind _ _ => c.clientsByResourceKind kind
  | _ => c.clientsByKeyType key.typeOf

/-- `getResourceClientFromList`: the identical two-path rule for list queries. -/
def KubeClient.getResourceClientFromList (c : KubeClient) (l : ListInterface) :
    Option ResourceClient :=
  match l with
  | .resourceList kind _ _ => c.clientsByResourceKind kind
  | _ => c.clientsByListType (some l.typeOf)

/-- `Create`: resolve a handler for the pair's key and delegate; with no
handler, fail with `ErrorOperationNotSupported{Identifier: d.Key, Operation: "Create"}`
and perform no handler call. -/
def KubeClient.Create (c : KubeClient) (d : KVPair) :
    Except CalicoError KVPair × HTrace :=
  match c.getResourceClientFromKey d.key with
  | none =>
      (Except.error (CalicoError.operationNotSupported (ErrIdentifier.keyId d.key) "Create"), [])
  | some client => (client.create d, [HCall.createCall client.id d])

/-- `Update`: as `Create`, with operation name "Update". -/
def KubeClient.Update (c : KubeClient) (d : KVPair) :
    Except CalicoError KVPair × HTrace :=
  match c.getResourceClientFromKey d.key with
  | none =>
      (Except.error (CalicoError.operationNotSupported (ErrIdentifier.keyId d.key) "Update"), [])
  | some client => (client.update d, [HCall.updateCall client.id d])

/-- `Apply`: attempt `Create` with only the key and value (revision left at its
zero value, since creation cannot specify a revision); on
`ErrorResourceAlreadyExists` fall back to `Update` with the original pair and
return its result; on any other `Create` failure return that error unchanged. -/
def KubeClient.Apply (c : KubeClient) (kvp : KVPair) :
    Except CalicoError KVPair × HTrace :=
  let created := c.Create ⟨kvp.key, kvp.value, ""⟩
  match created.1 with
  | Except.ok updated => (Except.ok updated, created.2)
  | Except.error e =>
      if e.isAlreadyExists then
        let upd := c.Update kvp
        (upd.1, created.2 ++ upd.2)
      else
        (Except.error e, created.2)

/-- `DeleteKVP`: delete by full KVPair; the not-supported error carries
operation name "Delete" (the literal the source uses in this method). -/
def KubeClient.DeleteKVP (c : KubeClient) (kvp : KVPair) :
    Except CalicoError KVPair × HTrace :=
  match c.getResourceClientFromKey kvp.key with
  | none =>
      (Except.error (CalicoError.operationNotSupported (ErrIdentifier.keyId kvp.key) "Delete"), [])
  | some client => (client.deleteKVP kvp, [HCall.deleteKVPCall client.id kvp])

/-- `Delete`: delete by key and revision. -/
def KubeClient.Delete (c : KubeClient) (k : Key) (revision : String) :
    Except CalicoError KVPair × HTrace :=
  match c.getResourceClientFromKey k with
  | none =>
      (Except.error (CalicoError.operationNotSupported (ErrIdentifier.keyId k) "Delete"), [])
  | some client => (client.delete k revision, [HCall.deleteCall client.id k revision])

/-- `Get`. -/
def KubeClient.Get (c : KubeClient) (k : Key) (revision : String) :
    Except CalicoError KVPair × HTrace :=
  match c.getResourceClientFromKey k with
  | none =>
      (Except.error (CalicoError.operationNotSupported (ErrIdentifier.keyId k) "Get"), [])
  | some client => (client.get k revision, [HCall.getCall client.id k revision])

/-- `List`: resolved through the list-side two-path lookup. -/
def KubeClient.List (c : KubeClient) (l : ListInterface) (revision : String) :
    Except CalicoError KVPairList × HTrace :=
  match c.getResourceClientFromList l with
  | none =>
      (Except.error (CalicoError.operationNotSupported (ErrIdentifier.listId l) "List"), [])
  | some client => (client.list l revision, [HCall.listCall client.id l revision])

/-- `Watch`: resolved through the list-side two-path lookup; the handler's
watch result is an opaque stream handle. -/
def KubeClient.Watch (c : KubeClient) (l : ListInterface) (options : WatchOptions) :
    Except CalicoError Nat × HTrace :=
  match c.getResourceClientFromList l with
  | none =>
      (Except.error (CalicoError.operationNotSupported (ErrIdentifier.listId l) "Watch"), [])
  | some client => (client.watch l options, [HCall.watchCall client.id l options])

/-- `getReadyStatus`: always returns `&model.KVPair{Key: k, Value: true}` with
a nil error, regardless of the revision argument, making no handler call.
(`model.ReadyFlagKey{}` is a fieldless struct; its unique value is `Key.readyFlag`.) -/
def KubeClient.getReadyStatus (c : KubeClient) (revision : String) :
    Except CalicoError KVPair × HTrace :=
  (Except.ok ⟨Key.readyFlag, Value.boolVal true, ""⟩, [])

/-- Modelled from the spec: kind identifier strings (`apiv3.Kind*`,
`libapiv3.Kind*`, `model.Kind*`); each names its logical resource type. -/
def KindIPPool : String := "IPPool"

def KindIPReservation : String := "IPReservation"

def KindGlobalNetworkPolicy : String := "GlobalNetworkPolicy"

def KindStagedGlobalNetworkPolicy : String := "StagedGlobalNetworkPolicy"

def KindKubernetesAdminNetworkPolicy : String := "KubernetesAdminNetworkPolicy"

def KindKubernetesBaselineAdminNetworkPolicy : String := "KubernetesBaselineAdminNetworkPolicy"

def KindGlobalNetworkSet : String := "GlobalNetworkSet"

def KindNetworkPolicy : String := "NetworkPolicy"

def KindStagedNetworkPolicy : String := "StagedNetworkPolicy"

def KindKubernetesNetworkPolicy : String := "KubernetesNetworkPolicy"

def KindStagedKubernetesNetworkPolicy : String := "StagedKubernetesNetworkPolicy"

def KindKubernetesEndpointSlice : String := "KubernetesEndpointSlice"

def KindNetworkSet : String := "NetworkSet"

def KindTier : String := "Tier"

def KindBGPPeer : String := "BGPPeer"

def KindBGPConfiguration : String := "BGPConfiguration"

def KindFelixConfiguration : String := "FelixConfiguration"

def KindClusterInformation : String := "ClusterInformation"

def KindNode : String := "Node"

def KindProfile : String := "Profile"

def KindHostEndpoint : String := "HostEndpoint"

def KindWorkloadEndpoint : String := "WorkloadEndpoint"

def KindKubeControllersConfiguration : String := "KubeControllersConfiguration"

def KindCalicoNodeStatus : String := "CalicoNodeStatus"

def KindKubernetesService : String := "KubernetesService"

def KindIPAMConfig : String := "IPAMConfig"

def KindBlockAffinity : String := "BlockAffinity"

def KindBGPFilter : String := "BGPFilter"

def KindIPAMBlock : String := "IPAMBlock"

def KindIPAMHandle : String := "IPAMHandle"

/-- A per-kind resource client instance.  The concrete clients
(`resources.New*Client`) are external collaborators; each instance is
identified by its registration number and its behavior is opaque to this
adapter (every operation is reported as delegated to the external handler). -/
def mkResourceClient (n : Nat) : ResourceClient where
  id := n
  create := fun _ => Except.error (CalicoError.generic "external handler")
  update := fun _ => Except.error (CalicoError.generic "external handler")
  delete := fun _ _ => Except.error (CalicoError.generic "external handler")
  deleteKVP := fun _ => Except.error (CalicoError.generic "external handler")
  get := fun _ _ => Except.error (CalicoError.generic "external handler")
  list := fun _ _ => Except.error (CalicoError.generic "external handler")
  watch := fun _ _ => Except.error (CalicoError.generic "external handler")

/-- The `KubeClient` value as first constructed, with all three tables empty. -/
def emptyKubeClient : KubeClient where
  clientsByResourceKind := fun _ => none
  clientsByKeyType := fun _ => none
  clientsByListType := fun _ => none

/-- `NewKubeClient`, restricted to its registration logic: the fixed sequence
of generic-kind registrations, followed — only when `K8sUsePodCIDR` is false
("Calico is configured to use calico-ipam") — by the four narrow-key IPAM
registrations (the IPAM-config one passes a nil list type). -/
def NewKubeClient (k8sUsePodCIDR : Bool) : KubeClient :=
  let c := emptyKubeClient
  let c := c.registerResourceClient .resourceKeyType (some .resourceListType) KindIPPool (mkResourceClient 0)
  let c := c.registerResourceClient .resourceKeyType (some .resourceListType) KindIPReservation (mkResourceClient 1)
  let c := c.registerResourceClient .resourceKeyType (some .resourceListType) KindGlobalNetworkPolicy (mkResourceClient 2)
  let c := c.registerResourceClient .resourceKeyType (some .resourceListType) KindStagedGlobalNetworkPolicy (mkResourceClient 3)
  let c := c.registerResourceClient .resourceKeyType (some .resourceListType) KindKubernetesAdminNetworkPolicy (mkResourceClient 4)
  let c := c.registerResourceClient .resourceKeyType (some .resourceListType) KindKubernetesBaselineAdminNetworkPolicy (mkResourceClient 5)
  let c := c.registerResourceClient .resourceKeyType (some .resourceListType) KindGlobalNetworkSet (mkResourceClient 6)
  let c := c.registerResourceClient .resourceKeyType (some .resourceListType) KindNetworkPolicy (mkResourceClient 7)
  let c := c.registerResourceClient .resourceKeyType (some .resourceListType) KindStagedNetworkPolicy (mkResourceClient 8)
  let c := c.registerResourceClient .resourceKeyType (some .resourceListType) KindKubernetesNetworkPolicy (mkResourceClient 9)
  let c := c.registerResourceClient .resourceKeyType (some .resourceListType) KindStagedKubernetesNetworkPolicy (mkResourceClient 10)
  let c := c.registerResourceClient .resourceKeyType (some .resourceListType) KindKubernetesEndpointSlice (mkResourceClient 11)
  let c := c.registerResourceClient .resourceKeyType (some .resourceListType) KindNetworkSet (mkResourceClient 12)
  let c := c.registerResourceClient .resourceKeyType (some .resourceListType) KindTier (mkResourceClient 13)
  let c := c.registerResourceClient .resourceKeyType (some .resourceListType) KindBGPPeer (mkResourceClient 14)
  let c := c.registerResourceClient .resourceKeyType (some .resourceListType) KindBGPConfiguration (mkResourceClient 15)
  let c := c.registerResourceClient .resourceKeyType (some .resourceListType) KindFelixConfiguration (mkResourceClient 16)
  let c := c.registerResourceClient .resourceKeyType (some .resourceListType) KindClusterInformation (mkResourceClient 17)
  let c := c.registerResourceClient .resourceKeyType (some .resourceListType) KindNode (mkResourceClient 18)
  let c := c.registerResourceClient .resourceKeyType (some .resourceListType) KindProfile (mkResourceClient 19)
  let c := c.registerResourceClient .resourceKeyType (some .resourceListType) KindHostEndpoint (mkResourceClient 20)
  let c := c.registerResourceClient .resourceKeyType (some .resourceListType) KindWorkloadEndpoint (mkResourceClient 21)
  let c := c.registerResourceClient .resourceKeyType (some .resourceListType) KindKubeControllersConfiguration (mkResourceClient 22)
  let c := c.registerResourceClient .resourceKeyType (some .resourceListType) KindCalicoNodeStatus (mkResourceClient 23)
  let c := c.registerResourceClient .resourceKeyType (some .resourceListType) KindKubernetesService (mkResourceClient 24)
  let c := c.registerResourceClient .resourceKeyType (some .resourceListType) KindIPAMConfig (mkResourceClient 25)
  let c := c.registerResourceClient .resourceKeyType (some .resourceListType) KindBlockAffinity (mkResourceClient 26)
  let c := c.registerResourceClient .resourceKeyType (some .resourceListType) KindBGPFilter (mkResourceClient 27)
  if !k8sUsePodCIDR then
    let c := c.registerResourceClient .blockAffinityKeyType (some .blockAffinityListType) KindBlockAffinity (mkResourceClient 28)
    let c := c.registerResourceClient .blockKeyType (some .blockListType) KindIPAMBlock (mkResourceClient 29)
    let c := c.registerResourceClient .ipamHandleKeyType (some .ipamHandleListType) KindIPAMHandle (mkResourceClient 30)
    c.registerResourceClient .ipamConfigKeyType none KindIPAMConfig (mkResourceClient 31)
  else
    c

/-- The connection-configuration fields of `apiconfig.CalicoAPIConfigSpec`
consumed by the client factory (`K8sClientQPS` is floating-point and out of
scope of this embedding; it is not involved in any claim). -/
structure CalicoAPIConfigSpec where
  kubeconfig : String := ""
  kubeconfigInline : String := ""
  k8sAPIEndpoint : String := ""
  k8sKeyFile : String := ""
  k8sCertFile : String := ""
  k8sCAFile : String := ""
  k8sAPIToken : String := ""
  k8sInsecureSkipTLSVerify : Bool := false
  k8sCurrentContext : String := ""
  k8sUsePodCIDR : Bool := false
deriving DecidableEq

/-- The override fields of `clientcmd.ConfigOverrides` this factory touches,
all zero-valued initially. -/
structure ConfigOverrides where
  currentContext : String := ""
  server : String := ""
  clientCertificate : String := ""
  clientKey : String := ""
  certificateAuthority : String := ""
  token : String := ""
  insecureSkipTLSVerify : Bool := false
deriving DecidableEq

/-- The fields of `clientcmd.ClientConfigLoadingRules` this factory touches. -/
structure LoadingRules where
  explicitPath : String := ""
  precedence : List String := []
  warnIfAllMissing : Bool := false
deriving DecidableEq

/-- Split a character list on a separator character (the behavior of Go
`strings.Split` over the string's characters), written structurally so that it
evaluates inside the kernel. -/
def splitOnChar (sep : Char) : List Char → List (List Char)
  | [] => [[]]
  | c :: cs =>
      let rest := splitOnChar sep cs
      if c = sep then [] :: rest
      else
        match rest with
        | [] => [[c]]
        | r :: rs => (c :: r) :: rs

/-- `filepath.SplitList` on a Unix host: the empty string yields no paths,
otherwise split on the OS path separator character. -/
def splitList (path : String) : List String :=
  if path = "" then []
  else (splitOnChar ':' path.toList).map (fun cs => String.mk cs)

/-- The recursion behind `deduplicate`: `encountered` is the set of values the
Go loop has seen so far (its `encountered` map); the emitted list is `ret`.
Keeps the first occurrence of each value, preserving order. -/
def dedupFrom (encountered : List String) : List String → List String
  | [] => []
  | x :: xs =>
      if x ∈ encountered then dedupFrom encountered xs
      else x :: dedupFrom (encountered ++ [x]) xs

/-- `deduplicate`: removes any duplicated values, keeping the order unchanged. -/
def deduplicate (s : List String) : List String :=
  dedupFrom [] s

/-- `fillLoadingRulesFromKubeConfigSpec`: with more than one path, set an
ordered de-duplicated precedence list and enable warn-if-all-missing;
otherwise set the explicit path. -/
def fillLoadingRulesFromKubeConfigSpec (loadingRules : LoadingRules) (kubeConfig : String) :
    LoadingRules :=
  let fileList := splitList kubeConfig
  if 1 < fileList.length then
    { loadingRules with precedence := deduplicate fileList, warnIfAllMissing := true }
  else
    { loadingRules with explicitPath := kubeConfig }

/-- The `overridesMap` loop of `CreateKubernetesClientset`: each override is
written only when its configured value is non-empty, then the skip-TLS-verify
flag only when true. -/
def computeConfigOverrides (ca : CalicoAPIConfigSpec) : ConfigOverrides :=
  let o : ConfigOverrides := {}
  let o := if ca.k8sCurrentContext ≠ "" then { o with currentContext := ca.k8sCurrentContext } else o
  let o := if ca.k8sAPIEndpoint ≠ "" then { o with server := ca.k8sAPIEndpoint } else o
  let o := if ca.k8sCertFile ≠ "" then { o with clientCertificate := ca.k8sCertFile } else o
  let o := if ca.k8sKeyFile ≠ "" then { o with clientKey := ca.k8sKeyFile } else o
  let o := if ca.k8sCAFile ≠ "" then { o with certificateAuthority := ca.k8sCAFile } else o
  let o := if ca.k8sAPIToken ≠ "" then { o with token := ca.k8sAPIToken } else o
  if ca.k8sInsecureSkipTLSVerify then { o with insecureSkipTLSVerify := true } else o

/-- The loading rules of `CreateKubernetesClientset`: filled from the
kubeconfig spec only when one was provided. -/
def computeLoadingRules (ca : CalicoAPIConfigSpec) : LoadingRules :=
  if ca.kubeconfig ≠ "" then fillLoadingRulesFromKubeConfigSpec {} ca.kubeconfig else {}

/-- How `CreateKubernetesClientset` builds the client configuration: an inline
kubeconfig is parsed directly from its bytes
(`clientcmd.NewClientConfigFromBytes`, which receives no overrides); otherwise
deferred loading combines the loading rules with the config overrides. -/
inductive ClientConfigSource where
  | inlineConfig (content : String)
  | deferredLoading (rules : LoadingRules) (overrides : ConfigOverrides)
deriving DecidableEq

/-- The config-construction path chosen by `CreateKubernetesClientset`. -/
def clientConfigSource (ca : CalicoAPIConfigSpec) : ClientConfigSource :=
  if ca.kubeconfigInline ≠ "" then ClientConfigSource.inlineConfig ca.kubeconfigInline
  else ClientConfigSource.deferredLoading (computeLoadingRules ca) (computeConfigOverrides ca)

/-- Modelled from the spec: the overrides actually handed to the client-config
machinery on each path.  `NewClientConfigFromBytes` receives only the inline
bytes, so the inline path carries no overrides; the deferred-loading path
receives the computed overrides. -/
def appliedOverrides : ClientConfigSource → ConfigOverrides
  | ClientConfigSource.inlineConfig _ => {}
  | ClientConfigSource.deferredLoading _ o => o

/-- A cluster node as consumed by the synthesizer: `v1.Node`, restricted to
`Name` and `Spec.PodCIDR`. -/
structure Node where
  name : String
  podCIDR : String
deriving DecidableEq

/-- An IP address as a byte sequence: 4 bytes for IPv4, 16 for IPv6. -/
abbrev IPBytes := List Nat

/-- Decimal value of one IPv4 dotted-quad field: one to three digits, no
leading zero, value at most 255. -/
def parseV4Octet (cs : List Char) : Option Nat :=
  if cs.length = 0 ∨ 3 < cs.length then none
  else if 1 < cs.length ∧ cs.take 1 = ['0'] then none
  else if cs.all Char.isDigit then
    let n := cs.foldl (fun a c => a * 10 + (c.toNat - 48)) 0
    if n ≤ 255 then some n else none
  else none

/-- Modelled from the spec (`lib/net`, wrapping the Go standard library, is not
part of the sources): parse a dotted-quad IPv4 address to its 4 bytes. -/
def parseIPv4 (cs : List Char) : Option IPBytes :=
  match (splitOnChar '.' cs).mapM parseV4Octet with
  | some [a, b, c, d] => some [a, b, c, d]
  | _ => none

/-- Value of one hexadecimal digit, if it is one. -/
def hexDigitVal (c : Char) : Option Nat :=
  if c.isDigit then some (c.toNat - 48)
  else if 'a' ≤ c ∧ c ≤ 'f' then some (c.toNat - 87)
  else if 'A' ≤ c ∧ c ≤ 'F' then some (c.toNat - 55)
  else none

/-- Value of one 16-bit IPv6 group: one to four hex digits. -/
def parseV6Group (cs : List Char) : Option Nat :=
  if cs.length = 0 ∨ 4 < cs.length then none
  else
    match cs.mapM hexDigitVal with
    | some ds => some (ds.foldl (fun a d => a * 16 + d) 0)
    | none => none

/-- Modelled from the spec: parse an uncompressed colon-separated IPv6 address
(eight hex groups) to its 16 bytes.  The `::` shorthand of the full grammar is
not needed by any claim; every address accepted here is also accepted by the
Go parser with the same byte value. -/
def parseIPv6 (cs : List Char) : Option IPBytes :=
  let groups := splitOnChar ':' cs
  if groups.length = 8 then
    match groups.mapM parseV6Group with
    | some gs => some (gs.foldr (fun g acc => g / 256 :: g % 256 :: acc) [])
    | none => none
  else none

/-- Modelled from the spec: the Go IP parser decides the family by the first
separator character ('.' for IPv4, ':' for IPv6). -/
def parseIP (cs : List Char) : Option IPBytes :=
  match cs.find? (fun c => c = '.' ∨ c = ':') with
  | some '.' => parseIPv4 cs
  | some ':' => parseIPv6 cs
  | _ => none

/-- Prefix length: one to three decimal digits, no leading zero. -/
def parsePrefixLen (cs : List Char) : Option Nat :=
  if cs.length = 0 ∨ 3 < cs.length then none
  else if 1 < cs.length ∧ cs.take 1 = ['0'] then none
  else if cs.all Char.isDigit then some (cs.foldl (fun a c => a * 10 + (c.toNat - 48)) 0)
  else none

/-- Modelled from the spec: `net.ParseCIDR` — an address, a slash and a prefix
length no larger than the address width; returns the address bytes (the
network part is unused by `getTunIp`). -/
def parseCIDR (s : String) : Except CalicoError IPBytes :=
  match splitOnChar '/' s.toList with
  | [addr, lenStr] =>
      match parseIP addr, parsePrefixLen lenStr with
      | some ip, some n =>
          if n ≤ 8 * ip.length then Except.ok ip
          else Except.error (CalicoError.generic "invalid CIDR address")
      | _, _ => Except.error (CalicoError.generic "invalid CIDR address")
  | _ => Except.error (CalicoError.generic "invalid CIDR address")

/-- Modelled from the spec: Go `IP.To4` — the 4-byte form for an IPv4 address
(given either as 4 bytes or as an IPv4-mapped 16-byte address), and nil for
any other address. -/
def to4 (ip : IPBytes) : Option IPBytes :=
  if ip.length = 4 then some ip
  else if ip.length = 16 ∧ ip.take 10 = List.replicate 10 0 ∧ (ip.drop 10).take 2 = [255, 255] then
    some (ip.drop 12)
  else none

/-- `tunIp[3]++`: increment the last octet of a 4-byte address (byte overflow
wraps). -/
def incLastOctet : IPBytes → IPBytes
  | [a, b, c, d] => [a, b, c, (d + 1) % 256]
  | other => other

/-- Dotted-quad rendering of a 4-byte address (Go `IP.String()` on IPv4). -/
def ipv4String (ip : IPBytes) : String :=
  String.intercalate "." (ip.map toString)

/-- `getTunIp`: an empty pod-CIDR yields no pair and no error; a CIDR that
fails to parse yields the parse error; otherwise the first usable host address
is synthesized by incrementing the last octet of the 4-byte form.  The outer
`Option` is the panic monad: the source indexes `tunIp[3]` without checking
`To4` for nil, so an address with no 4-byte form is a nil-slice index (`none`
here); every non-panicking outcome is `some`. -/
def getTunIp (n : Node) : Option (Except CalicoError (Option KVPair)) :=
  if n.podCIDR = "" then some (Except.ok none)
  else
    match parseCIDR n.podCIDR with
    | Except.error e => some (Except.error e)
    | Except.ok ip =>
        match to4 ip with
        | none => none
        | some tun4 =>
            some (Except.ok (some
              ⟨Key.hostConfig n.name "IpInIpTunnelAddr", Value.strVal (ipv4String (incLastOctet tun4)), ""⟩))

/-- `model.HostConfigListOptions`. -/
structure HostConfigListOptions where
  hostname : String := ""
  name : String := ""
deriving DecidableEq

/-- The node loop of `listHostConfig` over all listed nodes: a node whose
`getTunIp` errors or yields no pair is skipped; a panic in `getTunIp`
propagates. -/
def collectTunIps : List Node → Option (List KVPair)
  | [] => some []
  | n :: rest =>
      match getTunIp n with
      | none => none
      | some r =>
          match collectTunIps rest with
          | none => none
          | some ks =>
              match r with
              | Except.ok (some kvp) => some (kvp :: ks)
              | _ => some ks

/-- `listHostConfig` over a given node population (the clientset node
List/Get calls are modelled from the spec as lookups into `nodes`): a name
other than IpInIpTunnelAddr short-circuits to an empty result; an empty
hostname walks all nodes, skipping those without a usable pod-CIDR; a named
host resolves just that node, turning an error or missing pair into an empty
result. -/
def listHostConfig (nodes : List Node) (l : HostConfigListOptions) (revision : String) :
    Option (Except CalicoError KVPairList) :=
  if l.name ≠ "" ∧ l.name ≠ "IpInIpTunnelAddr" then
    some (Except.ok ⟨[], revision⟩)
  else if l.hostname = "" then
    match collectTunIps nodes with
    | none => none
    | some kvps => some (Except.ok ⟨kvps, revision⟩)
  else
    match nodes.find? (fun n => n.name = l.hostname) with
    | none => some (Except.error (CalicoError.generic "node not found"))
    | some n =>
        match getTunIp n with
        | none => none
        | some (Except.ok (some kvp)) => some (Except.ok ⟨[kvp], revision⟩)
        | some _ => some (Except.ok ⟨[], revision⟩)

/-- The fixed kind list `Clean` wipes, in source order. -/
def cleanKinds : List String :=
  [KindBGPConfiguration, KindBGPPeer, KindClusterInformation, KindCalicoNodeStatus,
   KindFelixConfiguration, KindGlobalNetworkPolicy, KindStagedGlobalNetworkPolicy,
   KindNetworkPolicy, KindStagedNetworkPolicy, KindStagedKubernetesNetworkPolicy,
   KindTier, KindGlobalNetworkSet, KindNetworkSet, KindIPPool, KindIPReservation,
   KindHostEndpoint, KindKubeControllersConfiguration, KindIPAMConfig,
   KindBlockAffinity, KindBGPFilter]

/-- The IPAM list queries `Clean` wipes by full KVPair, in source order (the
block-affinity options appear twice, as in the source). -/
def cleanIpamLists : List ListInterface :=
  [ListInterface.blockList 0, ListInterface.blockAffinityList "" 0,
   ListInterface.blockAffinityList "" 0, ListInterface.ipamHandleList]

/-- A call `Clean` issues against the backend.  The source only logs the
outcome of each delete/update, so the calls are recorded and their results
discarded. -/
inductive CleanCall where
  | listAttempt (l : ListInterface) (revision : String)
  | deleteAttempt (k : Key) (revision : String)
  | deleteKVPAttempt (d : KVPair)
  | updateAttempt (d : KVPair)
deriving DecidableEq

/-- The backend as `Clean` sees it: the outcome of each List call (through the
dispatch layer), plus the outcome functions for the mutating calls, whose
results `Clean` ignores. -/
structure CleanEnv where
  listFn : ListInterface → String → Except CalicoError KVPairList
  deleteFn : Key → String → Except CalicoError KVPair
  deleteKVPFn : KVPair → Except CalicoError KVPair
  updateFn : KVPair → Except CalicoError KVPair

/-- One iteration of the generic-kind loop of `Clean`: list the kind; on a
listing failure log and move on; otherwise attempt to delete every listed item
by key and revision, logging (ignoring) each failure. -/
def cleanKindStep (env : CleanEnv) (k : String) : List CleanCall :=
  let lo := ListInterface.resourceList k "" ""
  match env.listFn lo "" with
  | Except.error _ => [CleanCall.listAttempt lo ""]
  | Except.ok rs =>
      CleanCall.listAttempt lo "" ::
        rs.kvPairs.map (fun r => CleanCall.deleteAttempt r.key r.revision)

/-- One iteration of the IPAM loop of `Clean`: as `cleanKindStep`, but deletion
is by full KVPair. -/
def cleanIpamStep (env : CleanEnv) (li : ListInterface) : List CleanCall :=
  match env.listFn li "" with
  | Except.error _ => [CleanCall.listAttempt li ""]
  | Except.ok rs =>
      CleanCall.listAttempt li "" :: rs.kvPairs.map (fun r => CleanCall.deleteKVPAttempt r)

/-- The per-node updates of `Clean`'s node loop: each node value has its BGP
spec cleared and is written back.  The source casts `Value.(*libapiv3.Node)`
without a check, so a non-node value is a panic (`none`). -/
def nodeUpdates : List KVPair → Option (List CleanCall)
  | [] => some []
  | kvp :: rest =>
      match kvp.value with
      | Value.nodeVal _ restData =>
          match nodeUpdates rest with
          | some cs => some (CleanCall.updateAttempt ⟨kvp.key, Value.nodeVal none restData, kvp.revision⟩ :: cs)
          | none => none
      | _ => none

/-- The node step of `Clean`: list all nodes; on failure log and move on;
otherwise remove the BGP configuration from each node. -/
def cleanNodeStep (env : CleanEnv) : Option (List CleanCall) :=
  let lo := ListInterface.resourceList KindNode "" ""
  match env.listFn lo "" with
  | Except.error _ => some [CleanCall.listAttempt lo ""]
  | Except.ok nodes =>
      match nodeUpdates nodes.kvPairs with
      | some cs => some (CleanCall.listAttempt lo "" :: cs)
      | none => none

/-- `Clean`: the best-effort teardown — the generic-kind loop, the IPAM loop,
the node BGP-clearing loop, the final global IPAM-config delete — always
returning a nil error.  The outer `Option` is the panic monad for the
unchecked node cast. -/
def Clean (env : CleanEnv) : Option (Except CalicoError Unit × List CleanCall) :=
  let kindCalls := (cleanKinds.map (cleanKindStep env)).flatten
  let ipamCalls := (cleanIpamLists.map (cleanIpamStep env)).flatten
  match cleanNodeStep env with
  | none => none
  | some nodeCalls =>
      some (Except.ok (),
        kindCalls ++ ipamCalls ++ nodeCalls ++ [CleanCall.deleteAttempt Key.ipamConfig ""])

/-! Theorems.  Each claim's theorem carries its claim id in the doc comment. -/

/-- Claim C9: requesting the readiness key always returns a KVPair whose value
is true, regardless of the revision argument, and makes no call to any backing
store or handler (empty call trace). -/
theorem ready_status_always_true (c : KubeClient) (revision : String) :
    (c.getReadyStatus revision).1 = Except.ok ⟨Key.readyFlag, Value.boolVal true, ""⟩ ∧
    (c.getReadyStatus revision).2 = [] ∧
    ∀ revision₂, c.getReadyStatus revision = c.getReadyStatus revision₂ :=
  ⟨rfl, rfl, fun _ => rfl⟩

/-- Claim C1, counterexample: `DeleteKVP` against a key with no registered
handler returns a "Not Supported" error whose operation name is "Delete" — not
"DeleteKVP", the name of the attempted operation — so the claim as stated
fails for the DeleteKVP operation. -/
theorem deleteKVP_reports_delete_operation_name :
    (emptyKubeClient.DeleteKVP ⟨Key.block "10.0.0.0/26", Value.rawVal 0, ""⟩).1 =
      Except.error (CalicoError.operationNotSupported
        (ErrIdentifier.keyId (Key.block "10.0.0.0/26")) "Delete") ∧
    "Delete" ≠ "DeleteKVP" :=
  ⟨rfl, by decide⟩

/-- Claim C1 (amended): every operation against a key or list with no
registered handler returns a "Not Supported" error carrying the supplied
key/list and the operation name — which is the operation's own name for
Create, Update, Delete, Get, List and Watch, and the literal "Delete" for
DeleteKVP — and makes no handler call (empty trace). -/
theorem unregistered_type_returns_not_supported (c : KubeClient) (d kvp : KVPair) (k : Key)
    (l : ListInterface) (revision : String) (options : WatchOptions)
    (hd : c.getResourceClientFromKey d.key = none)
    (hkvp : c.getResourceClientFromKey kvp.key = none)
    (hk : c.getResourceClientFromKey k = none)
    (hl : c.getResourceClientFromList l = none) :
    c.Create d = (Except.error (CalicoError.operationNotSupported (ErrIdentifier.keyId d.key) "Create"), []) ∧
    c.Update d = (Except.error (CalicoError.operationNotSupported (ErrIdentifier.keyId d.key) "Update"), []) ∧
    c.DeleteKVP kvp = (Except.error (CalicoError.operationNotSupported (ErrIdentifier.keyId kvp.key) "Delete"), []) ∧
    c.Delete k revision = (Except.error (CalicoError.operationNotSupported (ErrIdentifier.keyId k) "Delete"), []) ∧
    c.Get k revision = (Except.error (CalicoError.operationNotSupported (ErrIdentifier.keyId k) "Get"), []) ∧
    c.List l revision = (Except.error (CalicoError.operationNotSupported (ErrIdentifier.listId l) "List"), []) ∧
    c.Watch l options = (Except.error (CalicoError.operationNotSupported (ErrIdentifier.listId l) "Watch"), []) := by
  refine ⟨?_, ?_, ?_, ?_, ?_, ?_, ?_⟩ <;>
    simp [KubeClient.Create, KubeClient.Update, KubeClient.DeleteKVP, KubeClient.Delete,
      KubeClient.Get, KubeClient.List, KubeClient.Watch, hd, hkvp, hk, hl]

/-- Witness for the amended C1 theorem at a concrete unregistered key and list. -/
theorem unregistered_type_returns_not_supported_witness :
    emptyKubeClient.Create ⟨Key.block "10.0.0.0/26", Value.rawVal 0, ""⟩ =
      (Except.error (CalicoError.operationNotSupported
        (ErrIdentifier.keyId (Key.block "10.0.0.0/26")) "Create"), []) ∧
    emptyKubeClient.Watch (ListInterface.blockList 4) ⟨""⟩ =
      (Except.error (CalicoError.operationNotSupported
        (ErrIdentifier.listId (ListInterface.blockList 4)) "Watch"), []) := by
  have h := unregistered_type_returns_not_supported emptyKubeClient
    ⟨Key.block "10.0.0.0/26", Value.rawVal 0, ""⟩ ⟨Key.block "10.0.0.0/26", Value.rawVal 0, ""⟩
    Key.ipamConfig (ListInterface.blockList 4) "" ⟨""⟩ rfl rfl rfl rfl
  exact ⟨h.1, h.2.2.2.2.2.2⟩

/-- Claim C3, counterexample: with `K8sUsePodCIDR = true` (relying on the
platform's native pod-CIDR allocation) the narrow block-key registration is
absent, and it is present with `K8sUsePodCIDR = false` — the opposite of the
claimed condition. -/
theorem narrow_ipam_registration_mode_counterexample :
    ((NewKubeClient true).clientsByKeyType KeyType.blockKeyType).isSome = false ∧
    ((NewKubeClient false).clientsByKeyType KeyType.blockKeyType).isSome = true ∧
    (NewKubeClient true).getResourceClientFromKey (Key.block "10.0.0.0/26") = none :=
  ⟨rfl, rfl, rfl⟩

/-- Claim C3 (amended): the narrow-key registrations for block, block-affinity,
IPAM-handle and IPAM-config are added during construction exactly when
`K8sUsePodCIDR` is false (the adapter uses its own Calico IPAM); when relying
on the platform's native pod-CIDR allocation, lookups by those narrow key
types find no handler. -/
theorem narrow_ipam_registrations_iff_calico_ipam (b : Bool) :
    ((NewKubeClient b).clientsByKeyType KeyType.blockKeyType).isSome = !b ∧
    ((NewKubeClient b).clientsByKeyType KeyType.blockAffinityKeyType).isSome = !b ∧
    ((NewKubeClient b).clientsByKeyType KeyType.ipamHandleKeyType).isSome = !b ∧
    ((NewKubeClient b).clientsByKeyType KeyType.ipamConfigKeyType).isSome = !b ∧
    (∀ cidr, ((NewKubeClient b).getResourceClientFromKey (Key.block cidr)).isSome = !b) ∧
    (∀ host cidr,
      ((NewKubeClient b).getResourceClientFromKey (Key.blockAffinity host cidr)).isSome = !b) ∧
    (∀ handleID, ((NewKubeClient b).getResourceClientFromKey (Key.ipamHandle handleID)).isSome = !b) ∧
    ((NewKubeClient b).getResourceClientFromKey Key.ipamConfig).isSome = !b := by
  cases b <;>
    exact ⟨rfl, rfl, rfl, rfl, fun _ => rfl, fun _ _ => rfl, fun _ => rfl, rfl⟩

/-- Claim C10: `getTunIp` is claimed total on every successfully parsing
pod-CIDR; but a valid IPv6 CIDR parses to a 16-byte address whose `To4` form
is nil, and the unchecked `tunIp[3]++` is then an out-of-bounds (nil-slice)
access — the panic outcome `none`. -/
theorem getTunIp_ipv6_out_of_bounds :
    parseCIDR "fd00:0:0:0:0:0:0:0/64" =
      Except.ok [253, 0, 0, 0, 0, 0, 0, 0, 0, 0, 0, 0, 0, 0, 0, 0] ∧
    to4 [253, 0, 0, 0, 0, 0, 0, 0, 0, 0, 0, 0, 0, 0, 0, 0] = none ∧
    getTunIp ⟨"node-v6", "fd00:0:0:0:0:0:0:0/64"⟩ = none := by
  refine ⟨by decide, by decide, by decide⟩

/-- Claim C4: registration stores a generic-key handler only under the kind in
the kind table, and a narrow-key handler under its key-type descriptor plus —
only when a list-type descriptor is given — under that descriptor in the
list-type table; lookup resolves a generic-typed key by its embedded kind and
any other key by its type identity, and identically for list queries. -/
theorem registry_registration_and_lookup_two_path (c : KubeClient) (keyType : KeyType)
    (listType : Option ListType) (kind : String) (client : ResourceClient) :
    (keyType = KeyType.resourceKeyType →
      (c.registerResourceClient keyType listType kind client).clientsByResourceKind =
        (fun k => if k = kind then some client else c.clientsByResourceKind k) ∧
      (c.registerResourceClient keyType listType kind client).clientsByKeyType =
        c.clientsByKeyType ∧
      (c.registerResourceClient keyType listType kind client).clientsByListType =
        c.clientsByListType) ∧
    (keyType ≠ KeyType.resourceKeyType →
      (c.registerResourceClient keyType listType kind client).clientsByKeyType =
        (fun t => if t = keyType then some client else c.clientsByKeyType t) ∧
      (c.registerResourceClient keyType listType kind client).clientsByResourceKind =
        c.clientsByResourceKind ∧
      ∀ ltd : ListType,
        (c.registerResourceClient keyType listType kind client).clientsByListType (some ltd) =
          if some ltd = listType then some client
          else c.clientsByListType (some ltd)) ∧
    (∀ key : Key,
      (key.typeOf = KeyType.resourceKeyType →
        c.getResourceClientFromKey key = c.clientsByResourceKind key.resourceKind) ∧
      (key.typeOf ≠ KeyType.resourceKeyType →
        c.getResourceClientFromKey key = c.clientsByKeyType key.typeOf)) ∧
    (∀ l : ListInterface,
      (l.typeOf = ListType.resourceListType →
        c.getResourceClientFromList l = c.clientsByResourceKind l.resourceKind) ∧
      (l.typeOf ≠ ListType.resourceListType →
        c.getResourceClientFromList l = c.clientsByListType (some l.typeOf))) := by
  refine ⟨?_, ?_, ?_, ?_⟩
  · intro h
    subst h
    exact ⟨rfl, rfl, rfl⟩
  · intro h
    rw [KubeClient.registerResourceClient, if_neg h]
    exact ⟨rfl, rfl, fun ltd => rfl⟩
  · intro key
    cases key <;> constructor <;> intro h <;>
      first
        | rfl
        | exact absurd rfl h
        | simp [Key.typeOf] at h
  · intro l
    cases l <;> constructor <;> intro h <;>
      first
        | rfl
        | exact absurd rfl h
        | simp [ListInterface.typeOf] at h

/-- Witness for the C4 theorem: a narrow registration at concrete arguments
lands in the key-type and list-type tables. -/
theorem registry_registration_and_lookup_two_path_witness :
    (emptyKubeClient.registerResourceClient KeyType.blockKeyType (some ListType.blockListType)
        KindIPAMBlock (mkResourceClient 5)).clientsByKeyType =
      (fun t => if t = KeyType.blockKeyType then some (mkResourceClient 5) else none) ∧
    (emptyKubeClient.registerResourceClient KeyType.blockKeyType (some ListType.blockListType)
        KindIPAMBlock (mkResourceClient 5)).clientsByListType (some ListType.blockListType) =
      some (mkResourceClient 5) := by
  have h := registry_registration_and_lookup_two_path emptyKubeClient KeyType.blockKeyType
    (some ListType.blockListType) KindIPAMBlock (mkResourceClient 5)
  have h2 := h.2.1 (by decide)
  exact ⟨h2.1, h2.2.2 ListType.blockListType⟩

/-- The update calls recorded in a trace, as (handler id, pair) entries. -/
def updateCallsOf (t : HTrace) : List (Nat × KVPair) :=
  t.filterMap (fun call =>
    match call with
    | HCall.updateCall cid d => some (cid, d)
    | _ => none)

/-- The create calls recorded in a trace, as (handler id, pair) entries. -/
def createCallsOf (t : HTrace) : List (Nat × KVPair) :=
  t.filterMap (fun call =>
    match call with
    | HCall.createCall cid d => some (cid, d)
    | _ => none)

/-- `updateCallsOf` distributes over trace concatenation. -/
theorem updateCallsOf_append (a b : HTrace) :
    updateCallsOf (a ++ b) = updateCallsOf a ++ updateCallsOf b := by
  simp [updateCallsOf, List.filterMap_append]

/-- `Create` on a registered key delegates to the handler and records exactly
that call. -/
theorem create_trace (c : KubeClient) (d : KVPair) (cl : ResourceClient)
    (hcl : c.getResourceClientFromKey d.key = some cl) :
    c.Create d = (cl.create d, [HCall.createCall cl.id d]) := by
  simp [KubeClient.Create, hcl]

/-- `Update` on a registered key delegates to the handler and records exactly
that call. -/
theorem update_trace (c : KubeClient) (d : KVPair) (cl : ResourceClient)
    (hcl : c.getResourceClientFromKey d.key = some cl) :
    c.Update d = (cl.update d, [HCall.updateCall cl.id d]) := by
  simp [KubeClient.Update, hcl]

/-- Characterization of `Apply` by the outcome of its initial `Create`. -/
theorem KubeClient.apply_eq (c : KubeClient) (kvp : KVPair) :
    c.Apply kvp =
      match c.Create ⟨kvp.key, kvp.value, ""⟩ with
      | (Except.ok v, t) => (Except.ok v, t)
      | (Except.error e, t) =>
          if e.isAlreadyExists then ((c.Update kvp).1, t ++ (c.Update kvp).2)
          else (Except.error e, t) := by
  unfold KubeClient.Apply
  cases hc : c.Create ⟨kvp.key, kvp.value, ""⟩ with
  | mk r t => cases r <;> simp

/-- A `Create` trace records no update calls. -/
theorem create_no_update_calls (c : KubeClient) (d : KVPair) :
    updateCallsOf (c.Create d).2 = [] := by
  unfold KubeClient.Create
  cases c.getResourceClientFromKey d.key <;> simp [updateCallsOf]

/-- Claim C2: `Apply` first invokes `Create` with only the original key and
value (revision stripped); exactly when that `Create` fails with "already
exists", `Apply` invokes `Update` once with the original KVPair unmodified and
returns `Update`'s result; on any other `Create` failure `Update` is never
invoked and the `Create` error is returned as-is. -/
theorem apply_create_then_update_fallback (c : KubeClient) (kvp : KVPair) :
    (∀ cl, c.getResourceClientFromKey kvp.key = some cl →
      createCallsOf (c.Apply kvp).2 = [(cl.id, ⟨kvp.key, kvp.value, ""⟩)]) ∧
    (∀ v t, c.Create ⟨kvp.key, kvp.value, ""⟩ = (Except.ok v, t) →
      c.Apply kvp = (Except.ok v, t) ∧ updateCallsOf (c.Apply kvp).2 = []) ∧
    (∀ e t, c.Create ⟨kvp.key, kvp.value, ""⟩ = (Except.error e, t) →
      e.isAlreadyExists = true →
      c.Apply kvp = ((c.Update kvp).1, t ++ (c.Update kvp).2) ∧
      ∀ cl, c.getResourceClientFromKey kvp.key = some cl →
        updateCallsOf (c.Apply kvp).2 = [(cl.id, kvp)]) ∧
    (∀ e t, c.Create ⟨kvp.key, kvp.value, ""⟩ = (Except.error e, t) →
      e.isAlreadyExists = false →
      c.Apply kvp = (Except.error e, t) ∧ updateCallsOf (c.Apply kvp).2 = []) := by
  refine ⟨?_, ?_, ?_, ?_⟩
  · intro cl hcl
    have ht := create_trace c ⟨kvp.key, kvp.value, ""⟩ cl hcl
    rw [KubeClient.apply_eq, ht]
    cases hcc : cl.create ⟨kvp.key, kvp.value, ""⟩ with
    | ok v => simp [createCallsOf]
    | error e =>
        cases hae : e.isAlreadyExists with
        | true =>
            rw [update_trace c kvp cl hcl]
            simp [hae, createCallsOf]
        | false => simp [hae, createCallsOf]
  · intro v t hc
    rw [KubeClient.apply_eq, hc]
    have hu : updateCallsOf t = [] := by
      have := create_no_update_calls c ⟨kvp.key, kvp.value, ""⟩
      rw [hc] at this
      exact this
    exact ⟨rfl, hu⟩
  · intro e t hc hae
    have hu : updateCallsOf t = [] := by
      have h0 := create_no_update_calls c ⟨kvp.key, kvp.value, ""⟩
      rw [hc] at h0
      exact h0
    rw [KubeClient.apply_eq, hc]
    simp only [hae, if_true]
    refine ⟨trivial, ?_⟩
    intro cl hcl
    rw [update_trace c kvp cl hcl]
    show updateCallsOf (t ++ [HCall.updateCall cl.id kvp]) = [(cl.id, kvp)]
    rw [updateCallsOf_append, hu]
    rfl
  · intro e t hc hae
    have hu : updateCallsOf t = [] := by
      have h0 := create_no_update_calls c ⟨kvp.key, kvp.value, ""⟩
      rw [hc] at h0
      exact h0
    rw [KubeClient.apply_eq, hc]
    simp [hae, hu]

/-- A handler whose `Create` always reports "already exists" and whose
`Update` echoes its argument, for exercising `Apply`'s fallback path. -/
def aeClient : ResourceClient where
  id := 7
  create := fun d => Except.error (CalicoError.resourceAlreadyExists (ErrIdentifier.keyId d.key))
  update := fun d => Except.ok d
  delete := fun _ _ => Except.error (CalicoError.generic "external handler")
  deleteKVP := fun _ => Except.error (CalicoError.generic "external handler")
  get := fun _ _ => Except.error (CalicoError.generic "external handler")
  list := fun _ _ => Except.error (CalicoError.generic "external handler")
  watch := fun _ _ => Except.error (CalicoError.generic "external handler")

/-- A client with only the always-already-exists block handler registered. -/
def aeKubeClient : KubeClient :=
  emptyKubeClient.registerResourceClient KeyType.blockKeyType (some ListType.blockListType)
    KindIPAMBlock aeClient

/-- A client whose block handler fails `Create` with a non-already-exists error. -/
def geKubeClient : KubeClient :=
  emptyKubeClient.registerResourceClient KeyType.blockKeyType (some ListType.blockListType)
    KindIPAMBlock (mkResourceClient 9)

/-- A sample pair with a non-empty revision, addressed by a narrow key. -/
def applyKvp : KVPair := ⟨Key.block "10.0.0.0/26", Value.rawVal 3, "rev7"⟩

/-- Witness for the C2 theorem: the fallback path on "already exists" updates
exactly once with the original pair, and a generic `Create` failure is
returned as-is with no update call. -/
theorem apply_create_then_update_fallback_witness :
    (aeKubeClient.Apply applyKvp =
      ((aeKubeClient.Update applyKvp).1,
        [HCall.createCall 7 ⟨applyKvp.key, applyKvp.value, ""⟩] ++ (aeKubeClient.Update applyKvp).2) ∧
      updateCallsOf (aeKubeClient.Apply applyKvp).2 = [(7, applyKvp)]) ∧
    (geKubeClient.Apply applyKvp =
      (Except.error (CalicoError.generic "external handler"),
        [HCall.createCall 9 ⟨applyKvp.key, applyKvp.value, ""⟩]) ∧
      updateCallsOf (geKubeClient.Apply applyKvp).2 = []) := by
  have hae := (apply_create_then_update_fallback aeKubeClient applyKvp).2.2.1
    (CalicoError.resourceAlreadyExists (ErrIdentifier.keyId applyKvp.key))
    [HCall.createCall 7 ⟨applyKvp.key, applyKvp.value, ""⟩] rfl rfl
  have hge := (apply_create_then_update_fallback geKubeClient applyKvp).2.2.2
    (CalicoError.generic "external handler")
    [HCall.createCall 9 ⟨applyKvp.key, applyKvp.value, ""⟩] rfl rfl
  exact ⟨⟨hae.1, hae.2 aeClient rfl⟩, ⟨hge.1, hge.2⟩⟩

set_option maxHeartbeats 2000000 in
/-- Starting from zero-valued overrides, the override loop leaves each field
equal to its configured value (set when non-empty, untouched — hence still the
zero value, which coincides — when empty). -/
theorem computeConfigOverrides_eq (ca : CalicoAPIConfigSpec) :
    computeConfigOverrides ca =
      { currentContext := ca.k8sCurrentContext
        server := ca.k8sAPIEndpoint
        clientCertificate := ca.k8sCertFile
        clientKey := ca.k8sKeyFile
        certificateAuthority := ca.k8sCAFile
        token := ca.k8sAPIToken
        insecureSkipTLSVerify := ca.k8sInsecureSkipTLSVerify } := by
  unfold computeConfigOverrides
  split_ifs <;> simp_all [ConfigOverrides.mk.injEq]

/-- A connection configuration supplying both an inline kubeconfig and a
non-empty API-server override. -/
def inlineOverrideSpec : CalicoAPIConfigSpec :=
  { kubeconfigInline := "apiVersion: v1", k8sAPIEndpoint := "https://example.org:6443" }

/-- Claim C6, counterexample: with an inline kubeconfig, a non-empty API-server
override is not applied — the inline path parses the bytes directly and passes
no overrides — so the overrides are not layered on top of every loading path. -/
theorem inline_kubeconfig_ignores_overrides_counterexample :
    inlineOverrideSpec.k8sAPIEndpoint = "https://example.org:6443" ∧
    "https://example.org:6443" ≠ "" ∧
    clientConfigSource inlineOverrideSpec = ClientConfigSource.inlineConfig "apiVersion: v1" ∧
    (appliedOverrides (clientConfigSource inlineOverrideSpec)).server = "" :=
  ⟨rfl, by decide, rfl, rfl⟩

/-- Claim C6 (amended): each override field is applied exactly when its
configured value is non-empty (or true for the skip-verify flag) — starting
from zero values, the computed overrides equal the configured values — and the
overrides are layered on top of the path-based loading (explicit path(s) or
default discovery); when an inline kubeconfig string is supplied it is parsed
directly and the overrides are not applied. -/
theorem overrides_applied_on_loading_paths (ca : CalicoAPIConfigSpec) :
    (computeConfigOverrides ca).currentContext = ca.k8sCurrentContext ∧
    (computeConfigOverrides ca).server = ca.k8sAPIEndpoint ∧
    (computeConfigOverrides ca).clientCertificate = ca.k8sCertFile ∧
    (computeConfigOverrides ca).clientKey = ca.k8sKeyFile ∧
    (computeConfigOverrides ca).certificateAuthority = ca.k8sCAFile ∧
    (computeConfigOverrides ca).token = ca.k8sAPIToken ∧
    (computeConfigOverrides ca).insecureSkipTLSVerify = ca.k8sInsecureSkipTLSVerify ∧
    (ca.kubeconfigInline = "" →
      clientConfigSource ca =
        ClientConfigSource.deferredLoading (computeLoadingRules ca) (computeConfigOverrides ca) ∧
      appliedOverrides (clientConfigSource ca) = computeConfigOverrides ca) ∧
    (ca.kubeconfigInline ≠ "" →
      clientConfigSource ca = ClientConfigSource.inlineConfig ca.kubeconfigInline ∧
      appliedOverrides (clientConfigSource ca) = ({} : ConfigOverrides)) := by
  refine ⟨by rw [computeConfigOverrides_eq], by rw [computeConfigOverrides_eq],
    by rw [computeConfigOverrides_eq], by rw [computeConfigOverrides_eq],
    by rw [computeConfigOverrides_eq], by rw [computeConfigOverrides_eq],
    by rw [computeConfigOverrides_eq], ?_, ?_⟩
  · intro h
    have hsrc : clientConfigSource ca =
        ClientConfigSource.deferredLoading (computeLoadingRules ca) (computeConfigOverrides ca) := by
      unfold clientConfigSource
      simp [h]
    exact ⟨hsrc, by rw [hsrc]; rfl⟩
  · intro h
    have hsrc : clientConfigSource ca = ClientConfigSource.inlineConfig ca.kubeconfigInline := by
      unfold clientConfigSource
      simp [h]
    exact ⟨hsrc, by rw [hsrc]; rfl⟩

/-- Witness for the C6 theorem: a config with only an API-server override
takes the deferred-loading path carrying its overrides, and a config with an
inline kubeconfig takes the inline path carrying none. -/
theorem overrides_applied_on_loading_paths_witness :
    (clientConfigSource { k8sAPIEndpoint := "https://example.org:6443" } =
      ClientConfigSource.deferredLoading
        (computeLoadingRules { k8sAPIEndpoint := "https://example.org:6443" })
        (computeConfigOverrides { k8sAPIEndpoint := "https://example.org:6443" }) ∧
      (computeConfigOverrides { k8sAPIEndpoint := "https://example.org:6443" }).server =
        "https://example.org:6443") ∧
    (clientConfigSource { kubeconfigInline := "apiVersion: v1" } =
      ClientConfigSource.inlineConfig "apiVersion: v1" ∧
      appliedOverrides (clientConfigSource { kubeconfigInline := "apiVersion: v1" }) =
        ({} : ConfigOverrides)) := by
  have h1 := overrides_applied_on_loading_paths { k8sAPIEndpoint := "https://example.org:6443" }
  have h2 := overrides_applied_on_loading_paths { kubeconfigInline := "apiVersion: v1" }
  exact ⟨⟨(h1.2.2.2.2.2.2.2.1 rfl).1, h1.2.1⟩,
    ⟨(h2.2.2.2.2.2.2.2.2 (by decide)).1, (h2.2.2.2.2.2.2.2.2 (by decide)).2⟩⟩

/-- Membership in the deduplication recursion: exactly the input values not
already encountered. -/
theorem mem_dedupFrom (x : String) (l : List String) :
    ∀ enc, x ∈ dedupFrom enc l ↔ x ∈ l ∧ x ∉ enc := by
  induction l with
  | nil => intro enc; simp [dedupFrom]
  | cons y ys ih =>
      intro enc
      by_cases h : y ∈ enc
      · rw [dedupFrom, if_pos h, ih enc]
        constructor
        · rintro ⟨hm, hn⟩
          exact ⟨List.mem_cons_of_mem _ hm, hn⟩
        · rintro ⟨hm, hn⟩
          rcases List.mem_cons.1 hm with rfl | hm2
          · exact absurd h hn
          · exact ⟨hm2, hn⟩
      · rw [dedupFrom, if_neg h, List.mem_cons, ih (enc ++ [y]), List.mem_append,
          List.mem_singleton, List.mem_cons]
        constructor
        · rintro (rfl | ⟨hm, hn⟩)
          · exact ⟨Or.inl rfl, h⟩
          · exact ⟨Or.inr hm, fun hx => hn (Or.inl hx)⟩
        · rintro ⟨rfl | hm, hn⟩
          · exact Or.inl rfl
          · by_cases hxy : x = y
            · exact Or.inl hxy
            · exact Or.inr ⟨hm, fun hx => hx.elim hn hxy⟩

/-- The deduplication recursion emits no value twice. -/
theorem nodup_dedupFrom (l : List String) : ∀ enc, (dedupFrom enc l).Nodup := by
  induction l with
  | nil => intro enc; simp [dedupFrom]
  | cons y ys ih =>
      intro enc
      by_cases h : y ∈ enc
      · rw [dedupFrom, if_pos h]
        exact ih enc
      · rw [dedupFrom, if_neg h]
        refine List.nodup_cons.2 ⟨?_, ih (enc ++ [y])⟩
        intro hy
        exact ((mem_dedupFrom y ys (enc ++ [y])).1 hy).2 (by simp)

/-- The deduplication recursion emits values in first-occurrence order: the
first-occurrence indices of the emitted values are strictly increasing. -/
theorem pairwise_firstOcc_dedupFrom (l : List String) :
    ∀ enc, (dedupFrom enc l).Pairwise (fun a b => l.indexOf a < l.indexOf b) := by
  induction l with
  | nil => intro enc; simp [dedupFrom]
  | cons y ys ih =>
      intro enc
      by_cases h : y ∈ enc
      · rw [dedupFrom, if_pos h]
        refine (ih enc).imp_of_mem ?_
        intro a b ha hb hab
        have ha2 := (mem_dedupFrom a ys enc).1 ha
        have hb2 := (mem_dedupFrom b ys enc).1 hb
        have hay : y ≠ a := fun he => ha2.2 (he ▸ h)
        have hby : y ≠ b := fun he => hb2.2 (he ▸ h)
        rw [List.indexOf_cons_ne _ hay, List.indexOf_cons_ne _ hby]
        exact Nat.succ_lt_succ hab
      · rw [dedupFrom, if_neg h]
        refine List.pairwise_cons.2 ⟨?_, ?_⟩
        · intro b hb
          have hb2 := (mem_dedupFrom b ys (enc ++ [y])).1 hb
          have hby : y ≠ b := fun he => hb2.2 (by simp [he])
          rw [List.indexOf_cons_self, List.indexOf_cons_ne _ hby]
          exact Nat.succ_pos _
        · refine (ih (enc ++ [y])).imp_of_mem ?_
          intro a b ha hb hab
          have ha2 := (mem_dedupFrom a ys (enc ++ [y])).1 ha
          have hb2 := (mem_dedupFrom b ys (enc ++ [y])).1 hb
          have hay : y ≠ a := fun he => ha2.2 (by simp [he])
          have hby : y ≠ b := fun he => hb2.2 (by simp [he])
          rw [List.indexOf_cons_ne _ hay, List.indexOf_cons_ne _ hby]
          exact Nat.succ_lt_succ hab

/-- Claim C7: with two or more OS-path-separated paths, the precedence list is
the de-duplicated file list — each distinct path exactly once (no duplicates,
same membership) in first-occurrence order — and warn-if-all-missing is
enabled; with a single path, the explicit path is set instead and the
precedence list (and warn flag) are untouched. -/
theorem kubeconfig_path_resolution (loadingRules : LoadingRules) (kubeConfig : String) :
    (1 < (splitList kubeConfig).length →
      (fillLoadingRulesFromKubeConfigSpec loadingRules kubeConfig).precedence =
        deduplicate (splitList kubeConfig) ∧
      (fillLoadingRulesFromKubeConfigSpec loadingRules kubeConfig).warnIfAllMissing = true ∧
      (deduplicate (splitList kubeConfig)).Nodup ∧
      (∀ x, x ∈ deduplicate (splitList kubeConfig) ↔ x ∈ splitList kubeConfig) ∧
      (deduplicate (splitList kubeConfig)).Pairwise
        (fun a b => (splitList kubeConfig).indexOf a < (splitList kubeConfig).indexOf b)) ∧
    ((splitList kubeConfig).length = 1 →
      (fillLoadingRulesFromKubeConfigSpec loadingRules kubeConfig).explicitPath = kubeConfig ∧
      (fillLoadingRulesFromKubeConfigSpec loadingRules kubeConfig).precedence =
        loadingRules.precedence ∧
      (fillLoadingRulesFromKubeConfigSpec loadingRules kubeConfig).warnIfAllMissing =
        loadingRules.warnIfAllMissing) := by
  constructor
  · intro h
    rw [fillLoadingRulesFromKubeConfigSpec]
    simp only [h, if_true]
    refine ⟨by trivial, by trivial, nodup_dedupFrom _ _, ?_, pairwise_firstOcc_dedupFrom _ _⟩
    intro x
    rw [deduplicate, mem_dedupFrom]
    simp
  · intro h
    rw [fillLoadingRulesFromKubeConfigSpec]
    have : ¬ 1 < (splitList kubeConfig).length := by omega
    simp only [this, if_false]
    exact ⟨by trivial, by trivial, by trivial⟩

/-- Witness for the C7 theorem: a duplicated two-path list is de-duplicated
in first-occurrence order with the warn flag enabled, and a single path sets
the explicit path. -/
theorem kubeconfig_path_resolution_witness :
    (fillLoadingRulesFromKubeConfigSpec {} "/a:/b:/a").precedence = ["/a", "/b"] ∧
    (fillLoadingRulesFromKubeConfigSpec {} "/a:/b:/a").warnIfAllMissing = true ∧
    (fillLoadingRulesFromKubeConfigSpec {} "/one").explicitPath = "/one" ∧
    (fillLoadingRulesFromKubeConfigSpec {} "/one").precedence = [] := by
  have h1 := (kubeconfig_path_resolution {} "/a:/b:/a").1 (by decide)
  have h2 := (kubeconfig_path_resolution {} "/one").2 (by decide)
  refine ⟨?_, h1.2.1, h2.1, h2.2.1⟩
  rw [h1.1]
  decide

/-- `getTunIp` on a node with pod-CIDR `10.1.2.0/24` synthesizes the host
address `10.1.2.1` under the IpInIpTunnelAddr host-config key. -/
theorem getTunIp_pod24 (name : String) :
    getTunIp ⟨name, "10.1.2.0/24"⟩ =
      some (Except.ok (some ⟨Key.hostConfig name "IpInIpTunnelAddr",
        Value.strVal "10.1.2.1", ""⟩)) := rfl

/-- A non-panicking node population yields a collected list. -/
theorem collectTunIps_isSome (nodes : List Node)
    (h : ∀ n ∈ nodes, (getTunIp n).isSome = true) :
    ∃ kvps, collectTunIps nodes = some kvps := by
  induction nodes with
  | nil => exact ⟨[], rfl⟩
  | cons n rest ih =>
      obtain ⟨ks, hks⟩ := ih (fun m hm => h m (List.mem_cons_of_mem _ hm))
      have hn := h n (List.mem_cons_self _ _)
      simp only [collectTunIps]
      cases hg : getTunIp n with
      | none => rw [hg] at hn; cases hn
      | some r =>
          rw [hks]
          cases r with
          | ok o =>
              cases o with
              | none => exact ⟨ks, rfl⟩
              | some kvp => exact ⟨kvp :: ks, rfl⟩
          | error e => exact ⟨ks, rfl⟩

/-- Every pair a node synthesizes is in the collected list. -/
theorem collectTunIps_mem (n : Node) (kvp : KVPair)
    (hg : getTunIp n = some (Except.ok (some kvp))) :
    ∀ (nodes : List Node) (kvps : List KVPair),
      collectTunIps nodes = some kvps → n ∈ nodes → kvp ∈ kvps := by
  intro nodes
  induction nodes with
  | nil => intro kvps _ hn; cases hn
  | cons m rest ih =>
      intro kvps hc hn
      simp only [collectTunIps] at hc
      rcases List.mem_cons.1 hn with rfl | hn2
      · rw [hg] at hc
        cases hrest : collectTunIps rest with
        | none => rw [hrest] at hc; cases hc
        | some ks =>
            rw [hrest] at hc
            cases hc
            exact List.mem_cons_self _ _
      · cases hg2 : getTunIp m with
        | none => rw [hg2] at hc; cases hc
        | some r =>
            rw [hg2] at hc
            cases hrest : collectTunIps rest with
            | none => rw [hrest] at hc; cases hc
            | some ks =>
                rw [hrest] at hc
                have hk := ih ks hrest hn2
                cases r with
                | ok o =>
                    cases o with
                    | none => cases hc; exact hk
                    | some kvp2 => cases hc; exact List.mem_cons_of_mem _ hk
                | error e => cases hc; exact hk

/-- Every collected pair was synthesized by some listed node. -/
theorem collectTunIps_sources (kvp : KVPair) :
    ∀ (nodes : List Node) (kvps : List KVPair), collectTunIps nodes = some kvps →
      kvp ∈ kvps → ∃ n ∈ nodes, getTunIp n = some (Except.ok (some kvp)) := by
  intro nodes
  induction nodes with
  | nil =>
      intro kvps hc hk
      simp only [collectTunIps] at hc
      cases hc
      cases hk
  | cons m rest ih =>
      intro kvps hc hk
      simp only [collectTunIps] at hc
      cases hg : getTunIp m with
      | none => rw [hg] at hc; cases hc
      | some r =>
          rw [hg] at hc
          cases hrest : collectTunIps rest with
          | none => rw [hrest] at hc; cases hc
          | some ks =>
              rw [hrest] at hc
              cases r with
              | ok o =>
                  cases o with
                  | none =>
                      cases hc
                      obtain ⟨n, hn, hgn⟩ := ih kvps hrest hk
                      exact ⟨n, List.mem_cons_of_mem _ hn, hgn⟩
                  | some kvp2 =>
                      cases hc
                      rcases List.mem_cons.1 hk with rfl | hk2
                      · exact ⟨m, List.mem_cons_self _ _, hg⟩
                      · obtain ⟨n, hn, hgn⟩ := ih ks hrest hk2
                        exact ⟨n, List.mem_cons_of_mem _ hn, hgn⟩
              | error e =>
                  cases hc
                  obtain ⟨n, hn, hgn⟩ := ih kvps hrest hk
                  exact ⟨n, List.mem_cons_of_mem _ hn, hgn⟩

/-- A synthesized pair comes from a node with a non-empty pod-CIDR and is keyed
by that node's hostname under the IpInIpTunnelAddr host-config name. -/
theorem getTunIp_some_shape (n : Node) (kvp : KVPair)
    (h : getTunIp n = some (Except.ok (some kvp))) :
    n.podCIDR ≠ "" ∧ kvp.key = Key.hostConfig n.name "IpInIpTunnelAddr" := by
  unfold getTunIp at h
  split at h
  · simp at h
  · rename_i hp
    refine ⟨hp, ?_⟩
    split at h
    · simp at h
    · split at h
      · simp at h
      · simp only [Option.some.injEq, Except.ok.injEq] at h
        rw [← h]

/-- Claim C5: over any non-panicking node population, a full host-config list
for the tunnel-address name succeeds; every node with pod-CIDR `10.1.2.0/24`
contributes a pair keyed by its hostname with value `10.1.2.1`; and every
returned pair comes from a node with a non-empty pod-CIDR (nodes with an empty
pod-CIDR are omitted without failing the request). -/
theorem listHostConfig_tunnel_address_synthesis (nodes : List Node)
    (l : HostConfigListOptions) (revision : String)
    (hname : l.name = "" ∨ l.name = "IpInIpTunnelAddr")
    (hhost : l.hostname = "")
    (hsafe : ∀ n ∈ nodes, (getTunIp n).isSome = true) :
    ∃ res, listHostConfig nodes l revision = some (Except.ok res) ∧
      res.revision = revision ∧
      (∀ n ∈ nodes, n.podCIDR = "10.1.2.0/24" →
        (⟨Key.hostConfig n.name "IpInIpTunnelAddr", Value.strVal "10.1.2.1", ""⟩ : KVPair) ∈
          res.kvPairs) ∧
      (∀ kvp ∈ res.kvPairs, ∃ n ∈ nodes, n.podCIDR ≠ "" ∧
        kvp.key = Key.hostConfig n.name "IpInIpTunnelAddr") := by
  obtain ⟨kvps, hc⟩ := collectTunIps_isSome nodes hsafe
  refine ⟨⟨kvps, revision⟩, ?_, rfl, ?_, ?_⟩
  · rw [listHostConfig]
    have hcond : ¬ (l.name ≠ "" ∧ l.name ≠ "IpInIpTunnelAddr") := by
      rcases hname with h | h <;> simp [h]
    rw [if_neg hcond, if_pos hhost, hc]
  · intro n hn hcidr
    refine collectTunIps_mem n _ ?_ nodes kvps hc hn
    have : n = ⟨n.name, "10.1.2.0/24"⟩ := by
      cases n
      simp_all
    rw [this]
    exact getTunIp_pod24 n.name
  · intro kvp hk
    obtain ⟨n, hn, hgn⟩ := collectTunIps_sources kvp nodes kvps hc hk
    obtain ⟨hne, hkey⟩ := getTunIp_some_shape n kvp hgn
    exact ⟨n, hn, hne, hkey⟩

/-- Witness for the C5 theorem at a concrete two-node population. -/
theorem listHostConfig_tunnel_address_synthesis_witness :
    ∃ res, listHostConfig [⟨"node-a", "10.1.2.0/24"⟩, ⟨"node-b", ""⟩] ⟨"", ""⟩ "rv" =
        some (Except.ok res) ∧
      res.revision = "rv" ∧
      (∀ n ∈ [(⟨"node-a", "10.1.2.0/24"⟩ : Node), ⟨"node-b", ""⟩], n.podCIDR = "10.1.2.0/24" →
        (⟨Key.hostConfig n.name "IpInIpTunnelAddr", Value.strVal "10.1.2.1", ""⟩ : KVPair) ∈
          res.kvPairs) ∧
      (∀ kvp ∈ res.kvPairs, ∃ n ∈ [(⟨"node-a", "10.1.2.0/24"⟩ : Node), ⟨"node-b", ""⟩],
        n.podCIDR ≠ "" ∧ kvp.key = Key.hostConfig n.name "IpInIpTunnelAddr") :=
  listHostConfig_tunnel_address_synthesis [⟨"node-a", "10.1.2.0/24"⟩, ⟨"node-b", ""⟩]
    ⟨"", ""⟩ "rv" (Or.inl rfl) rfl (by decide)

/-- Whether every item of a successful node listing is a node object (the
condition under which the unchecked cast in the node loop cannot panic). -/
def nodeListWellTyped (env : CleanEnv) : Bool :=
  match env.listFn (ListInterface.resourceList KindNode "" "") "" with
  | Except.ok rs => rs.kvPairs.all (fun r => r.value.isNode)
  | Except.error _ => true

/-- A list of node-valued pairs yields update calls for each of them. -/
theorem nodeUpdates_isSome (kvPairs : List KVPair)
    (h : kvPairs.all (fun r => r.value.isNode) = true) :
    ∃ cs, nodeUpdates kvPairs = some cs := by
  induction kvPairs with
  | nil => exact ⟨[], rfl⟩
  | cons kvp rest ih =>
      rw [List.all_cons, Bool.and_eq_true] at h
      obtain ⟨cs, hcs⟩ := ih h.2
      simp only [nodeUpdates]
      cases hv : kvp.value with
      | nodeVal bgp restData => rw [hcs]; exact ⟨_, rfl⟩
      | strVal s => rw [hv] at h; cases h.1
      | boolVal b => rw [hv] at h; cases h.1
      | rawVal m => rw [hv] at h; cases h.1

/-- A well-typed environment gives the node step a result. -/
theorem cleanNodeStep_isSome (env : CleanEnv) (hwt : nodeListWellTyped env = true) :
    ∃ cs, cleanNodeStep env = some cs := by
  unfold nodeListWellTyped at hwt
  simp only [cleanNodeStep]
  cases hl : env.listFn (ListInterface.resourceList KindNode "" "") "" with
  | error e => exact ⟨_, rfl⟩
  | ok nodes =>
      rw [hl] at hwt
      dsimp only at hwt ⊢
      obtain ⟨cs, hcs⟩ := nodeUpdates_isSome nodes.kvPairs hwt
      rw [hcs]
      exact ⟨_, rfl⟩

/-- The kind step always records its list attempt. -/
theorem cleanKindStep_list_mem (env : CleanEnv) (k : String) :
    CleanCall.listAttempt (ListInterface.resourceList k "" "") "" ∈ cleanKindStep env k := by
  simp only [cleanKindStep]
  cases env.listFn (ListInterface.resourceList k "" "") "" with
  | error e => exact List.mem_singleton.2 rfl
  | ok rs => exact List.mem_cons_self _ _

/-- On a successful kind listing, the kind step records a delete attempt for
every listed item. -/
theorem cleanKindStep_delete_mem (env : CleanEnv) (k : String) (rs : KVPairList)
    (hl : env.listFn (ListInterface.resourceList k "" "") "" = Except.ok rs)
    (r : KVPair) (hr : r ∈ rs.kvPairs) :
    CleanCall.deleteAttempt r.key r.revision ∈ cleanKindStep env k := by
  simp only [cleanKindStep]
  rw [hl]
  exact List.mem_cons_of_mem _ (List.mem_map_of_mem _ hr)

/-- The IPAM step always records its list attempt. -/
theorem cleanIpamStep_list_mem (env : CleanEnv) (li : ListInterface) :
    CleanCall.listAttempt li "" ∈ cleanIpamStep env li := by
  simp only [cleanIpamStep]
  cases env.listFn li "" with
  | error e => exact List.mem_singleton.2 rfl
  | ok rs => exact List.mem_cons_self _ _

/-- On a successful IPAM listing, the IPAM step records a KVPair-delete
attempt for every listed item. -/
theorem cleanIpamStep_delete_mem (env : CleanEnv) (li : ListInterface) (rs : KVPairList)
    (hl : env.listFn li "" = Except.ok rs) (r : KVPair) (hr : r ∈ rs.kvPairs) :
    CleanCall.deleteKVPAttempt r ∈ cleanIpamStep env li := by
  simp only [cleanIpamStep]
  rw [hl]
  exact List.mem_cons_of_mem _ (List.mem_map_of_mem _ hr)

/-- Claim C8: `Clean` is best-effort — for every combination of internal
failures (any listing outcomes, any delete/update outcomes) it returns
success; every kind in the fixed list has its listing attempted; every item of
every successful listing has its deletion attempted; the IPAM lists are
attempted likewise; the final global IPAM-config delete is always attempted;
and the outcomes of the delete/update calls never change `Clean`'s behavior. -/
theorem clean_best_effort_always_succeeds (env : CleanEnv)
    (hwt : nodeListWellTyped env = true) :
    ∃ tr, Clean env = some (Except.ok (), tr) ∧
      (∀ k ∈ cleanKinds, CleanCall.listAttempt (ListInterface.resourceList k "" "") "" ∈ tr) ∧
      (∀ k ∈ cleanKinds, ∀ rs, env.listFn (ListInterface.resourceList k "" "") "" = Except.ok rs →
        ∀ r ∈ rs.kvPairs, CleanCall.deleteAttempt r.key r.revision ∈ tr) ∧
      (∀ li ∈ cleanIpamLists, CleanCall.listAttempt li "" ∈ tr) ∧
      (∀ li ∈ cleanIpamLists, ∀ rs, env.listFn li "" = Except.ok rs →
        ∀ r ∈ rs.kvPairs, CleanCall.deleteKVPAttempt r ∈ tr) ∧
      CleanCall.deleteAttempt Key.ipamConfig "" ∈ tr ∧
      (∀ d dk u, Clean { env with deleteFn := d, deleteKVPFn := dk, updateFn := u } =
        Clean env) := by
  obtain ⟨nodeCalls, hnc⟩ := cleanNodeStep_isSome env hwt
  refine ⟨(cleanKinds.map (cleanKindStep env)).flatten ++
      (cleanIpamLists.map (cleanIpamStep env)).flatten ++ nodeCalls ++
      [CleanCall.deleteAttempt Key.ipamConfig ""], ?_, ?_, ?_, ?_, ?_, ?_, ?_⟩
  · unfold Clean
    rw [hnc]
  · intro k hk
    refine List.mem_append_left _ (List.mem_append_left _ (List.mem_append_left _ ?_))
    exact List.mem_flatten.2 ⟨cleanKindStep env k, List.mem_map_of_mem _ hk,
      cleanKindStep_list_mem env k⟩
  · intro k hk rs hl r hr
    refine List.mem_append_left _ (List.mem_append_left _ (List.mem_append_left _ ?_))
    exact List.mem_flatten.2 ⟨cleanKindStep env k, List.mem_map_of_mem _ hk,
      cleanKindStep_delete_mem env k rs hl r hr⟩
  · intro li hli
    refine List.mem_append_left _ (List.mem_append_left _ (List.mem_append_right _ ?_))
    exact List.mem_flatten.2 ⟨cleanIpamStep env li, List.mem_map_of_mem _ hli,
      cleanIpamStep_list_mem env li⟩
  · intro li hli rs hl r hr
    refine List.mem_append_left _ (List.mem_append_left _ (List.mem_append_right _ ?_))
    exact List.mem_flatten.2 ⟨cleanIpamStep env li, List.mem_map_of_mem _ hli,
      cleanIpamStep_delete_mem env li rs hl r hr⟩
  · exact List.mem_append_right _ (List.mem_singleton.2 rfl)
  · intro d dk u
    rfl

/-- A backend for exercising `Clean`: one kind lists a single item, the node
listing fails, and everything else fails too. -/
def cleanEnvW : CleanEnv where
  listFn := fun li _ =>
    if li = ListInterface.resourceList KindBGPConfiguration "" "" then
      Except.ok ⟨[⟨Key.resource KindBGPConfiguration "" "bgp1", Value.rawVal 1, "r1"⟩], ""⟩
    else Except.error (CalicoError.generic "boom")
  deleteFn := fun _ _ => Except.error (CalicoError.generic "boom")
  deleteKVPFn := fun _ => Except.error (CalicoError.generic "boom")
  updateFn := fun _ => Except.error (CalicoError.generic "boom")

/-- Witness for the C8 theorem at a concrete failing backend. -/
theorem clean_best_effort_always_succeeds_witness :
    ∃ tr, Clean cleanEnvW = some (Except.ok (), tr) ∧
      (∀ k ∈ cleanKinds, CleanCall.listAttempt (ListInterface.resourceList k "" "") "" ∈ tr) ∧
      (∀ k ∈ cleanKinds, ∀ rs,
        cleanEnvW.listFn (ListInterface.resourceList k "" "") "" = Except.ok rs →
        ∀ r ∈ rs.kvPairs, CleanCall.deleteAttempt r.key r.revision ∈ tr) ∧
      (∀ li ∈ cleanIpamLists, CleanCall.listAttempt li "" ∈ tr) ∧
      (∀ li ∈ cleanIpamLists, ∀ rs, cleanEnvW.listFn li "" = Except.ok rs →
        ∀ r ∈ rs.kvPairs, CleanCall.deleteKVPAttempt r ∈ tr) ∧
      CleanCall.deleteAttempt Key.ipamConfig "" ∈ tr ∧
      (∀ d dk u, Clean { cleanEnvW with deleteFn := d, deleteKVPFn := dk, updateFn := u } =
        Clean cleanEnvW) :=
  clean_best_effort_always_succeeds cleanEnvW (by decide)

end Calico
